import Mathlib

/-!
Shallow embedding of the SimpleDB in-memory relational engine
(query_parser.cpp, table.cpp, database_engine.cpp of the
accelerated-data-engineering repository) together with proofs about the
claims of its specification.

Modelling conventions:
* `std::string` is Lean `String`; character-level work happens on `List Char`.
* C++ `int` is Lean `Int`; `std::stoi` range failures (the value does not fit
  a 32-bit int, which makes `std::stoi` throw `std::out_of_range`) are
  modelled as parse failure, like `std::invalid_argument`.  Both carry the
  libstdc++ `what()` message "stoi".
* C++ `double` is modelled as `DoubleVal`: the exact rational a finite
  source text denotes, a signed infinity, or NaN.  `std::stod` models the
  full `strtod` grammar (decimal and hexadecimal floats, the `inf`/`nan`
  spellings) and the `ERANGE`→`std::out_of_range` failures, with the exact
  round-to-nearest-ties-to-even overflow/underflow thresholds.  What is NOT
  modelled is the rounding of an accepted finite value to its nearest
  binary double: stored finite doubles stay exact rationals, so two
  distinct decimal literals closer than one ulp compare unequal here but
  equal in C++.  No claim below depends on that: the claims use doubles
  only through parse acceptance.
* exceptions are `Except String`; a thrown `std::runtime_error(msg)`,
  `std::invalid_argument` or `std::out_of_range` is `Except.error msg`.
* iostream output is modelled as data (`Output` below): the claims are about
  the rendered headers, rows and counts, not the box-drawing glyphs.
-/

/-- The whitespace set of `std::isspace` in the "C" locale, used both by
`std::istringstream` extraction (`iss >> token`) and by `strtol`/`strtod`. -/
def isSpaceChar (c : Char) : Bool :=
  c = ' ' || c = '\t' || c = '\n' || c = '\r' || c = '\x0b' || c = '\x0c'

/-- Split accumulator for whitespace splitting. -/
def splitWSAux : List Char → List Char → List (List Char)
  | [], acc => [acc.reverse]
  | c :: cs, acc =>
    if isSpaceChar c then acc.reverse :: splitWSAux cs []
    else splitWSAux cs (c :: acc)

/-- The successive whitespace-delimited fragments of a character list:
exactly the strings produced by repeated `iss >> token`. -/
def wordsOf (l : List Char) : List (List Char) :=
  (splitWSAux l []).filter (fun w => !w.isEmpty)

/-- Body of the fragment loop of `QueryParser::tokenize`.  Note the
unconditional `break` in the C++ `while`: at most ONE trailing punctuation
character is stripped, and when one is stripped the leading-parenthesis
handling is skipped entirely (`current` is reset to the empty string). -/
def processFragment : List Char → List (List Char)
  | [] => []
  | ch :: cs =>
    match (ch :: cs).getLast? with
    | none => []
    | some b =>
      if b = ',' ∨ b = ';' ∨ b = ')' then
        (if (ch :: cs).dropLast.isEmpty then [] else [(ch :: cs).dropLast]) ++
          (if b = ',' ∨ b = ')' then [[b]] else [])
      else if ch = '(' then [['(']] ++ (if cs.isEmpty then [] else [cs])
      else [ch :: cs]

/-- Concatenation of the per-fragment token lists. -/
def tokenizeL : List (List Char) → List (List Char)
  | [] => []
  | w :: ws => processFragment w ++ tokenizeL ws

/-- `QueryParser::tokenize`: split on whitespace, then split punctuation off
each fragment as `processFragment` does. -/
def tokenize (s : String) : List String :=
  (tokenizeL (wordsOf s.toList)).map (fun l => ⟨l⟩)

/-- ASCII lowering, as `::tolower` in the default "C" locale. -/
def lowerChar (c : Char) : Char :=
  if 'A' ≤ c ∧ c ≤ 'Z' then Char.ofNat (c.toNat + 32) else c

/-- `QueryParser::toLower`. -/
def toLower (s : String) : String := ⟨s.toList.map lowerChar⟩

deriving instance DecidableEq for Except

/-- Column definition: a name and a (free-text, lowercased by the parser)
type string, as `struct Column`. -/
structure Column where
  name : String
  type : String
deriving DecidableEq, Repr

/-- `enum class QueryType`. -/
inductive QueryType where
  | CREATE_TABLE
  | INSERT
  | SELECT
  | DROP_TABLE
  | SHOW_TABLES
  | DESCRIBE
  | UNKNOWN
deriving DecidableEq, Repr

/-- `struct ParsedQuery`. -/
structure ParsedQuery where
  type : QueryType
  table_name : String
  columns : List Column
  selected_columns : List String
  values : List String
  where_clause : String
deriving DecidableEq, Repr

/-- The default-constructed `ParsedQuery` (type `UNKNOWN`, all else empty). -/
def unknownQuery : ParsedQuery := ⟨QueryType.UNKNOWN, "", [], [], [], ""⟩

/-- Column-definition scan of `QueryParser::parseCreateTable`: walk the
tokens after `(`; stop on `)`, skip `,`, and record a (name, lowered type)
pair only when the token after the name is itself not `,` or `)` (else the
name token is silently skipped). -/
def parseColumnDefs : List String → List Column
  | [] => []
  | [_] => []
  | t :: t2 :: ts2 =>
    if t = ")" then []
    else if t = "," then parseColumnDefs (t2 :: ts2)
    else if t2 ≠ "," ∧ t2 ≠ ")" then ⟨t, toLower t2⟩ :: parseColumnDefs ts2
    else parseColumnDefs (t2 :: ts2)

/-- `QueryParser::parseCreateTable` (returns table name and column list). -/
def parseCreateTable (tokens : List String) : Except String (String × List Column) :=
  if tokens.length < 4 then Except.error "Invalid CREATE TABLE syntax"
  else
    let start := 3 + ((tokens.drop 3).findIdx (fun t => t = "("))
    if tokens.length ≤ start then Except.error "Missing column definitions in CREATE TABLE"
    else Except.ok (tokens.getD 2 "", parseColumnDefs (tokens.drop (start + 1)))

/-- One layer of matching straight quotes is stripped from a value token
(`parseInsert`'s quote handling). -/
def stripQuotes (t : String) : String :=
  let l := t.toList
  let dq : Char := '"'
  let sq : Char := Char.ofNat 39
  if 2 ≤ l.length ∧
      ((l.head? = some dq ∧ l.getLast? = some dq) ∨
       (l.head? = some sq ∧ l.getLast? = some sq)) then
    ⟨l.tail.dropLast⟩
  else t

/-- Value scan of `QueryParser::parseInsert`: walk tokens after `(`; stop on
`)`, skip `,`, strip one layer of quotes from each value token. -/
def parseInsertValues : List String → List String
  | [] => []
  | t :: ts =>
    if t = ")" then []
    else if t = "," then parseInsertValues ts
    else stripQuotes t :: parseInsertValues ts

/-- `QueryParser::parseInsert` (returns table name and value strings). -/
def parseInsert (tokens : List String) : Except String (String × List String) :=
  if tokens.length < 5 then Except.error "Invalid INSERT syntax"
  else if toLower (tokens.getD 1 "") ≠ "into" then
    Except.error "Expected 'INTO' after 'INSERT'"
  else if toLower (tokens.getD 3 "") ≠ "values" then
    Except.error "Expected 'VALUES' in INSERT statement"
  else
    let start := 4 + ((tokens.drop 4).findIdx (fun t => t = "("))
    if tokens.length ≤ start then Except.error "Missing values in INSERT statement"
    else Except.ok (tokens.getD 2 "", parseInsertValues (tokens.drop (start + 1)))

/-- Projection scan of `QueryParser::parseSelect`: skip `,`; on `*` the whole
list collected so far is cleared and the scan stops. -/
def parseSelColsAux : List String → List String → List String
  | acc, [] => acc.reverse
  | acc, t :: ts =>
    if t = "," then parseSelColsAux acc ts
    else if t = "*" then []
    else parseSelColsAux (t :: acc) ts

def parseSelCols (ts : List String) : List String := parseSelColsAux [] ts

/-- `QueryParser::parseSelect` (returns projected columns, table name and the
re-assembled three-token where clause, `""` when absent). -/
def parseSelect (tokens : List String) : Except String (List String × String × String) :=
  if tokens.length < 4 then Except.error "Invalid SELECT syntax"
  else
    let fromPos := 1 + ((tokens.drop 1).findIdx (fun t => toLower t = "from"))
    if tokens.length ≤ fromPos then Except.error "Missing 'FROM' in SELECT statement"
    else if tokens.length ≤ fromPos + 1 then Except.error "Missing table name after 'FROM'"
    else
      let sel := parseSelCols ((tokens.drop 1).take (fromPos - 1))
      let wherePos := fromPos + 2 + ((tokens.drop (fromPos + 2)).findIdx (fun t => toLower t = "where"))
      let wc :=
        if wherePos + 3 < tokens.length then
          tokens.getD (wherePos + 1) "" ++ " " ++ tokens.getD (wherePos + 2) "" ++ " " ++
            tokens.getD (wherePos + 3) ""
        else ""
      Except.ok (sel, tokens.getD (fromPos + 1) "", wc)

/-- `QueryParser::parseDropTable`. -/
def parseDropTable (tokens : List String) : Except String String :=
  if tokens.length < 3 then Except.error "Invalid DROP TABLE syntax"
  else Except.ok (tokens.getD 2 "")

/-- `QueryParser::parseDescribe`. -/
def parseDescribe (tokens : List String) : Except String String :=
  if tokens.length < 2 then Except.error "Invalid DESCRIBE syntax"
  else Except.ok (tokens.getD 1 "")

/-- `QueryParser::parse`: classify by the (case-folded) leading token, then
run the matching sub-parser.  An unrecognized leading token, or a missing
required second keyword, yields the default `UNKNOWN` query rather than an
error. -/
def parse (q : String) : Except String ParsedQuery :=
  let tokens := tokenize q
  match tokens with
  | [] => Except.ok unknownQuery
  | t0 :: _ =>
    let ft := toLower t0
    if ft = "create" then
      if 1 < tokens.length ∧ toLower (tokens.getD 1 "") = "table" then
        match parseCreateTable tokens with
        | Except.error e => Except.error e
        | Except.ok (n, cols) => Except.ok ⟨QueryType.CREATE_TABLE, n, cols, [], [], ""⟩
      else Except.ok unknownQuery
    else if ft = "insert" then
      match parseInsert tokens with
      | Except.error e => Except.error e
      | Except.ok (n, vals) => Except.ok ⟨QueryType.INSERT, n, [], [], vals, ""⟩
    else if ft = "select" then
      match parseSelect tokens with
      | Except.error e => Except.error e
      | Except.ok (sel, n, wc) => Except.ok ⟨QueryType.SELECT, n, [], sel, [], wc⟩
    else if ft = "drop" then
      if 1 < tokens.length ∧ toLower (tokens.getD 1 "") = "table" then
        match parseDropTable tokens with
        | Except.error e => Except.error e
        | Except.ok n => Except.ok ⟨QueryType.DROP_TABLE, n, [], [], [], ""⟩
      else Except.ok unknownQuery
    else if ft = "show" then
      if 1 < tokens.length ∧ toLower (tokens.getD 1 "") = "tables" then
        Except.ok ⟨QueryType.SHOW_TABLES, "", [], [], [], ""⟩
      else Except.ok unknownQuery
    else if ft = "describe" ∨ ft = "desc" then
      match parseDescribe tokens with
      | Except.error e => Except.error e
      | Except.ok n => Except.ok ⟨QueryType.DESCRIBE, n, [], [], [], ""⟩
    else Except.ok unknownQuery

/-- A C++ `double` as this engine can observe it: a finite value (held as
the exact rational the source text denotes — rounding to binary is not
modelled, see the header), a signed infinity, or NaN.  Infinities and NaN
are reachable only through the `inf`/`nan` spellings `strtod` accepts;
arithmetic never happens on stored values. -/
inductive DoubleVal where
  | finite : Rat → DoubleVal
  | inf : Bool → DoubleVal
  | nan : DoubleVal
deriving DecidableEq, Repr

/-- IEEE `==` on doubles: NaN compares unequal to everything, including
itself; infinities compare by sign. -/
def DoubleVal.eqB : DoubleVal → DoubleVal → Bool
  | DoubleVal.finite a, DoubleVal.finite b => a == b
  | DoubleVal.inf s1, DoubleVal.inf s2 => s1 == s2
  | _, _ => false

/-- IEEE `<` on doubles: any comparison with NaN is false;
`-inf < finite < +inf`. -/
def DoubleVal.ltB : DoubleVal → DoubleVal → Bool
  | DoubleVal.nan, _ => false
  | _, DoubleVal.nan => false
  | DoubleVal.finite a, DoubleVal.finite b => decide (a < b)
  | DoubleVal.finite _, DoubleVal.inf s2 => !s2
  | DoubleVal.inf s1, DoubleVal.finite _ => s1
  | DoubleVal.inf s1, DoubleVal.inf s2 => s1 && !s2

/-- IEEE `<=` on doubles (false whenever NaN is involved). -/
def DoubleVal.leB (a b : DoubleVal) : Bool := DoubleVal.ltB a b || DoubleVal.eqB a b

/-- `using Value = std::variant<int, double, std::string, bool>`.
The alternative order (and hence the index used by the variant's relational
operators) is that of the C++ declaration. -/
inductive Value where
  | intV : Int → Value
  | doubleV : DoubleVal → Value
  | strV : String → Value
  | boolV : Bool → Value
deriving DecidableEq, Repr

/-- `std::variant::index()`. -/
def Value.idx : Value → Nat
  | Value.intV _ => 0
  | Value.doubleV _ => 1
  | Value.strV _ => 2
  | Value.boolV _ => 3

/-- `operator==` on `Value`: equal alternative indices and equal payloads —
for the double alternative this is the IEEE equality (`NaN != NaN`). -/
def Value.eqB : Value → Value → Bool
  | Value.intV a, Value.intV b => a == b
  | Value.doubleV a, Value.doubleV b => DoubleVal.eqB a b
  | Value.strV a, Value.strV b => a == b
  | Value.boolV a, Value.boolV b => a == b
  | _, _ => false

/-- `operator<` on `Value`: the variant comparison compares alternative
indices first, then the payloads (numeric order for int/double, lexicographic
order for strings, `false < true` for bool). -/
def Value.ltB : Value → Value → Bool
  | Value.intV a, Value.intV b => decide (a < b)
  | Value.doubleV a, Value.doubleV b => DoubleVal.ltB a b
  | Value.strV a, Value.strV b => decide (a < b)
  | Value.boolV a, Value.boolV b => !a && b
  | v, w => decide (v.idx < w.idx)

/-- `operator<=` on `Value` (index-first, then the payloads; for every
payload kind `<=` coincides with `< or ==`, also for doubles, where all
three are false on NaN). -/
def Value.leB (v w : Value) : Bool := Value.ltB v w || Value.eqB v w

/-- A row is a sequence of values (`using Row = std::vector<Value>`). -/
abbrev Row := List Value

/-- `class Table`: name, schema, rows.  The private
`column_index_map` is not a separate field: `addColumn` keeps it equal to
the map sending each column name to the LAST index holding it (later
`addColumn` calls overwrite earlier entries), which is recomputed here by
`lastIndexOfName`. -/
structure Table where
  table_name : String
  columns : List Column
  rows : List Row
deriving DecidableEq, Repr

/-- Index of the last column with the given name: the value
`column_index_map` associates to the name, `none` when absent. -/
def lastIndexOfName : List Column → String → Option Nat
  | [], _ => none
  | c :: cs, n =>
    match lastIndexOfName cs n with
    | some i => some (i + 1)
    | none => if c.name = n then some 0 else none

/-- `Table::hasColumn` (a `column_index_map` lookup). -/
def Table.hasColumn (t : Table) (n : String) : Bool :=
  (lastIndexOfName t.columns n).isSome

/-- `Table::getColumnIndex`. -/
def Table.getColumnIndex (t : Table) (n : String) : Except String Nat :=
  match lastIndexOfName t.columns n with
  | some i => Except.ok i
  | none => Except.error ("Column '" ++ n ++ "' not found")

/-- `Table::addColumn`: appends; no uniqueness check. -/
def Table.addColumn (t : Table) (n ty : String) : Table :=
  ⟨t.table_name, t.columns ++ [⟨n, ty⟩], t.rows⟩

/-- Value of a digit list, most significant first (`strtol` accumulation). -/
def digitsToNat (l : List Char) : Nat :=
  l.foldl (fun a c => a * 10 + (c.toNat - 48)) 0

/-- `std::stoi`: skip whitespace, optional sign, at least one base-10 digit;
further characters are ignored.  No digit means `std::invalid_argument`;
a value outside the 32-bit int range means `std::out_of_range`; both are
failures here (`none`). -/
def stoi (s : String) : Option Int :=
  let l := s.toList.dropWhile isSpaceChar
  let sgn : Int := match l.head? with | some c => if c = '-' then -1 else 1 | none => 1
  let l2 := match l.head? with
    | some c => if c = '-' ∨ c = '+' then l.tail else l
    | none => l
  let ds := l2.takeWhile Char.isDigit
  if ds.isEmpty then none
  else
    let v : Int := sgn * (digitsToNat ds : Nat)
    if v < -2147483648 ∨ 2147483647 < v then none else some v

/-- Exponent digits of a `strtod` exponent part (0 when no digit follows,
in which case `strtod` does not consume the exponent and the value is the
plain mantissa, which the 0 also produces). -/
def readExpDigits (l : List Char) : Int :=
  (digitsToNat (l.takeWhile Char.isDigit) : Nat)

def readExpSigned : List Char → Int
  | [] => 0
  | c :: cs =>
    if c = '-' then -(readExpDigits cs)
    else if c = '+' then readExpDigits cs
    else readExpDigits (c :: cs)

/-- Decimal exponent marker of `strtod` (`e`/`E`). -/
def readExp : List Char → Int
  | [] => 0
  | c :: cs => if c = 'e' ∨ c = 'E' then readExpSigned cs else 0

/-- Binary exponent marker of a `strtod` hexadecimal float (`p`/`P`). -/
def readPExp : List Char → Int
  | [] => 0
  | c :: cs => if c = 'p' ∨ c = 'P' then readExpSigned cs else 0

def isHexDigitChar (c : Char) : Bool :=
  c.isDigit || decide ('a' ≤ c ∧ c ≤ 'f') || decide ('A' ≤ c ∧ c ≤ 'F')

def hexDigitVal (c : Char) : Nat :=
  if c.isDigit then c.toNat - 48
  else if 'a' ≤ c ∧ c ≤ 'f' then c.toNat - 87
  else c.toNat - 55

def hexDigitsToNat (l : List Char) : Nat :=
  l.foldl (fun a c => a * 16 + hexDigitVal c) 0

/-- `b ^ e` as a rational, for a natural base and integer exponent,
computed through native `Nat` exponentiation (the `Monoid` power on `Rat`
is a deep linear recursion that cannot be evaluated at exponents like
1024). -/
def ratPow (b : Nat) (e : Int) : Rat :=
  if 0 ≤ e then ((b ^ e.toNat : Nat) : Rat) else 1 / ((b ^ (-e).toNat : Nat) : Rat)

/-- Smallest magnitude `strtod` rounds (to nearest, ties to even) up to
infinity: the midpoint between `DBL_MAX` and `2^1024`.  From this bound on,
the C library sets `ERANGE`, so `std::stod` throws `std::out_of_range`. -/
def dblOverflowBound : Rat := ratPow 2 1024 - ratPow 2 970

/-- Smallest magnitude whose rounding (to nearest, ties to even) still
reaches the smallest normal double `2^-1022`: the midpoint between the
largest subnormal and `2^-1022`.  A nonzero value below it rounds to a
subnormal or to zero; glibc's `strtod` then sets `ERANGE` and `std::stod`
throws `std::out_of_range`. -/
def dblUnderflowBound : Rat := ratPow 2 (-1022) - ratPow 2 (-1075)

/-- The `ERANGE`→`std::out_of_range` check `std::stod` performs on the
exact value a finite source text denotes (see the two bounds above). -/
def stodRangeFilter (q : Rat) : Option DoubleVal :=
  if dblOverflowBound ≤ |q| then none
  else if q ≠ 0 ∧ |q| < dblUnderflowBound then none
  else some (DoubleVal.finite q)

/-- Magnitude a decimal `strtod` mantissa-plus-exponent denotes: digits
with an optional fractional part (at least one digit overall), then an
optional `e`/`E` exponent; `none` when there is no mantissa digit. -/
def stodDecVal (l2 : List Char) : Option Rat :=
  let ds := l2.takeWhile Char.isDigit
  let l3 := l2.drop ds.length
  let fs := match l3.head? with
    | some c => if c = '.' then l3.tail.takeWhile Char.isDigit else []
    | none => []
  let l4 := match l3.head? with
    | some c => if c = '.' then l3.tail.drop fs.length else l3
    | none => l3
  if ds.isEmpty ∧ fs.isEmpty then none
  else
    let mant : Rat := (digitsToNat ds : Nat) + (digitsToNat fs : Nat) / ratPow 10 fs.length
    some (mant * ratPow 10 (readExp l4))

/-- Magnitude the part after `0x`/`0X` of a `strtod` hexadecimal float
denotes: hex digits with an optional fractional part, then an optional
`p`/`P` binary exponent; `none` when there is no hex mantissa digit (then
`strtod` backtracks and the parsed prefix is just the `0`). -/
def stodHexVal (rest : List Char) : Option Rat :=
  let hd := rest.takeWhile isHexDigitChar
  let r2 := rest.drop hd.length
  let hf := match r2.head? with
    | some c => if c = '.' then r2.tail.takeWhile isHexDigitChar else []
    | none => []
  let r3 := match r2.head? with
    | some c => if c = '.' then r2.tail.drop hf.length else r2
    | none => r2
  if hd.isEmpty ∧ hf.isEmpty then none
  else
    let mant : Rat := (hexDigitsToNat hd : Nat) + (hexDigitsToNat hf : Nat) / ratPow 16 hf.length
    some (mant * ratPow 2 (readPExp r3))

/-- `std::stod` (`strtod` in the "C" locale): skip whitespace, optional
sign, then either the case-insensitive spellings `inf`/`infinity` or
`nan`/`nan(...)` (accepted, never a range error; the optional
nan-payload suffix and the sign bit of NaN are not observable here), a
hexadecimal float after `0x`/`0X`, or a decimal float; trailing characters
are ignored.  No mantissa digit means `std::invalid_argument`; a finite
value beyond the double range (overflow, or nonzero underflow to
subnormal/zero) means `std::out_of_range`; both are failures here
(`none`).  Finite values are kept exact (`Rat`) — their rounding to binary
is not modelled (see the header). -/
def stod (s : String) : Option DoubleVal :=
  let l := s.toList.dropWhile isSpaceChar
  let neg : Bool := decide (l.head? = some '-')
  let sgn : Rat := if neg then -1 else 1
  let l2 := match l.head? with
    | some c => if c = '-' ∨ c = '+' then l.tail else l
    | none => l
  if (l2.take 3).map lowerChar = ['i', 'n', 'f'] then some (DoubleVal.inf neg)
  else if (l2.take 3).map lowerChar = ['n', 'a', 'n'] then some DoubleVal.nan
  else
    match l2 with
    | z :: x :: rest =>
      if z = '0' ∧ (x = 'x' ∨ x = 'X') then
        match stodHexVal rest with
        | none => some (DoubleVal.finite 0)
        | some m => stodRangeFilter (sgn * m)
      else
        match stodDecVal l2 with
        | none => none
        | some m => stodRangeFilter (sgn * m)
    | _ =>
      match stodDecVal l2 with
      | none => none
      | some m => stodRangeFilter (sgn * m)

/-- `Table::parseValue`: type-directed conversion of a value string.  Any
declared type other than int/double/bool falls through to the string case.
The error strings are the `what()` payloads of the exceptions `std::stoi`
and `std::stod` throw in libstdc++. -/
def parseValue (value_str ty : String) : Except String Value :=
  if ty = "int" then
    match stoi value_str with
    | some v => Except.ok (Value.intV v)
    | none => Except.error "stoi"
  else if ty = "double" then
    match stod value_str with
    | some v => Except.ok (Value.doubleV v)
    | none => Except.error "stod"
  else if ty = "bool" then
    Except.ok (Value.boolV (toLower value_str = "true" ∨ toLower value_str = "1"))
  else Except.ok (Value.strV value_str)

/-- `Table::insertRow(const Row&)`: only the LENGTH of the row is checked
against the schema — the value kinds are not inspected. -/
def Table.insertRow (t : Table) (row : Row) : Except String Table :=
  if row.length ≠ t.columns.length then
    Except.error "Row size doesn't match number of columns"
  else Except.ok ⟨t.table_name, t.columns, t.rows ++ [row]⟩

/-- The conversion loop of `Table::insertRow(const std::vector<std::string>&)`:
convert each value string by the paired column's type, stopping at the first
conversion error. -/
def parseRowValues : List (String × Column) → Except String (List Value)
  | [] => Except.ok []
  | (s, c) :: rest =>
    match parseValue s c.type with
    | Except.error e => Except.error e
    | Except.ok v =>
      match parseRowValues rest with
      | Except.error e => Except.error e
      | Except.ok vs => Except.ok (v :: vs)

/-- `Table::insertRow(const std::vector<std::string>&)`: arity check, then
positional conversion; the row is appended only after every value converted
(the C++ builds the whole local `Row` before `rows.push_back`), so a failing
insert appends nothing. -/
def Table.insertRowStrings (t : Table) (values : List String) : Except String Table :=
  if values.length ≠ t.columns.length then
    Except.error "Number of values doesn't match number of columns"
  else
    match parseRowValues (values.zip t.columns) with
    | Except.error e => Except.error e
    | Except.ok row => Except.ok ⟨t.table_name, t.columns, t.rows ++ [row]⟩

/-- Fixed six-decimal rendering used by `std::to_string(double)`
(`"%f"`), on the rational model (round to nearest). -/
def renderDouble (q : Rat) : String :=
  let neg := decide (q < 0)
  let n := (round ((if neg then -q else q) * 1000000) : Int).toNat
  let fracs := toString (n % 1000000)
  (if neg then "-" else "") ++ toString (n / 1000000) ++ "." ++
    ⟨List.replicate (6 - fracs.length) '0'⟩ ++ fracs

/-- `Table::valueToString` (`"%f"` prints `inf`/`-inf`/`nan` for the
non-finite doubles; the sign glibc may print on a negative NaN is not
modelled, as NaN's sign bit is not). -/
def valueToString : Value → String
  | Value.intV v => toString v
  | Value.doubleV (DoubleVal.finite q) => renderDouble q
  | Value.doubleV (DoubleVal.inf s) => if s then "-inf" else "inf"
  | Value.doubleV DoubleVal.nan => "nan"
  | Value.strV s => s
  | Value.boolV b => if b then "true" else "false"

/-- The words `iss >> column_name >> op >> value_str` extracts from a
condition string. -/
def condWords (s : String) : List String :=
  (wordsOf s.toList).map (fun l => ⟨l⟩)

/-- Operator dispatch of `Table::evaluateCondition`; an unrecognized
operator falls through to `return false`. -/
def applyOp (op : String) (a b : Value) : Bool :=
  if op = "=" then Value.eqB a b
  else if op = "!=" then !(Value.eqB a b)
  else if op = "<" then Value.ltB a b
  else if op = ">" then Value.ltB b a
  else if op = "<=" then Value.leB a b
  else if op = ">=" then Value.leB b a
  else false

/-- `Table::evaluateCondition`.  Fewer than three whitespace tokens: `true`
(all rows match).  Unknown column: `false`.  Otherwise the literal is parsed
by the column's declared type (a conversion failure propagates as an
exception!) and compared.  `row.getD` stands for the C++ `row[col_idx]`,
whose behaviour is defined only when the row is at least as long as the
schema — which holds for every row a `Table` stores through `insertRow`. -/
def Table.evaluateCondition (t : Table) (row : Row) (condition : String) : Except String Bool :=
  match condWords condition with
  | column_name :: op :: value_str :: _ =>
    match lastIndexOfName t.columns column_name with
    | none => Except.ok false
    | some col_idx =>
      let row_value := row.getD col_idx (Value.strV "")
      match parseValue value_str ((t.columns.getD col_idx ⟨"", ""⟩).type) with
      | Except.error e => Except.error e
      | Except.ok condition_value => Except.ok (applyOp op row_value condition_value)
  | _ => Except.ok true

/-- The scan loop of `Table::selectRows`, carrying the index of the first
remaining row. -/
def selectRowsAux (t : Table) (wc : String) : Nat → List Row → Except String (List Nat)
  | _, [] => Except.ok []
  | i, r :: rs =>
    match Table.evaluateCondition t r wc with
    | Except.error e => Except.error e
    | Except.ok b =>
      match selectRowsAux t wc (i + 1) rs with
      | Except.error e => Except.error e
      | Except.ok rest => Except.ok (if b then i :: rest else rest)

/-- `Table::selectRows`: ordered indices of the rows matching the clause;
an empty clause selects every row without evaluating the condition. -/
def Table.selectRows (t : Table) (where_clause : String) : Except String (List Nat) :=
  if where_clause = "" then Except.ok (List.range t.rows.length)
  else selectRowsAux t where_clause 0 t.rows

/-- The data `Table::printRows` renders: headers and the projected, rendered
row values.  An empty projection means all columns in declared order;
projected names that are not columns are skipped; row indices beyond the
row count are skipped (the C++ guards `row_idx < rows.size()`). -/
def Table.selectData (t : Table) (row_indices : List Nat) (selected_columns : List String) :
    List String × List (List String) :=
  let col_indices : List Nat :=
    if selected_columns.isEmpty then List.range t.columns.length
    else selected_columns.filterMap (fun n => lastIndexOfName t.columns n)
  let headers : List String :=
    if selected_columns.isEmpty then t.columns.map (fun c => c.name)
    else selected_columns.filter (fun n => (lastIndexOfName t.columns n).isSome)
  let body := (row_indices.filter (fun i => i < t.rows.length)).map (fun ri =>
    col_indices.map (fun ci => valueToString ((t.rows.getD ri []).getD ci (Value.strV ""))))
  (headers, body)

/-- The engine registry `std::unordered_map<std::string, std::unique_ptr<Table>>`,
modelled as an association list with distinct keys (the operations below
insert a key only when absent and erase every occurrence, as a map does).
The hash map's iteration order is unspecified; nothing observable below
depends on the list order — `listTables` sorts. -/
abbrev DB := List (String × Table)

/-- `tables.find(name)`. -/
def lookupTable : DB → String → Option Table
  | [], _ => none
  | (k, t) :: rest, n => if k = n then some t else lookupTable rest n

/-- `DatabaseEngine::hasTable`. -/
def hasTable (st : DB) (n : String) : Bool := (lookupTable st n).isSome

def notFoundMsg (n : String) : String := "Table '" ++ n ++ "' not found"

/-- `DatabaseEngine::createTable`. -/
def createTable (st : DB) (n : String) : Except String DB :=
  if hasTable st n then Except.error ("Table '" ++ n ++ "' already exists")
  else Except.ok ((n, ⟨n, [], []⟩) :: st)

/-- `DatabaseEngine::getTable` (the lookup-or-throw both the mutating and
const paths perform). -/
def getTableE (st : DB) (n : String) : Except String Table :=
  match lookupTable st n with
  | some t => Except.ok t
  | none => Except.error (notFoundMsg n)

/-- Store an updated table back under its name (the C++ mutates the mapped
`Table` in place). -/
def replaceTable (st : DB) (n : String) (t' : Table) : DB :=
  st.map (fun p => if p.fst = n then (p.fst, t') else p)

/-- `DatabaseEngine::addColumn`. -/
def addColumnE (st : DB) (tn cn ty : String) : Except String DB :=
  match getTableE st tn with
  | Except.error e => Except.error e
  | Except.ok t => Except.ok (replaceTable st tn (t.addColumn cn ty))

/-- `DatabaseEngine::insertInto`. -/
def insertIntoE (st : DB) (tn : String) (vals : List String) : Except String DB :=
  match getTableE st tn with
  | Except.error e => Except.error e
  | Except.ok t =>
    match t.insertRowStrings vals with
    | Except.error e => Except.error e
    | Except.ok t' => Except.ok (replaceTable st tn t')

/-- `DatabaseEngine::dropTable`: existence check, then erase. -/
def dropTableE (st : DB) (n : String) : Except String DB :=
  if hasTable st n then Except.ok (st.filter (fun p => p.fst ≠ n))
  else Except.error (notFoundMsg n)

/-- `DatabaseEngine::listTables`: the registered names, sorted
lexicographically (`std::sort` with `std::string::operator<`; any correct
sort yields this list). -/
def listTables (st : DB) : List String :=
  List.insertionSort (fun a b => a ≤ b) (st.map Prod.fst)

/-- `DatabaseEngine::select`: matching row indices, then the rendered
projection; the row count `printRows` reports is the index count. -/
def selectE (st : DB) (tn : String) (cols : List String) (wc : String) :
    Except String (List String × List (List String) × Nat) :=
  match lookupTable st tn with
  | none => Except.error (notFoundMsg tn)
  | some t =>
    match t.selectRows wc with
    | Except.error e => Except.error e
    | Except.ok idxs =>
      Except.ok ((t.selectData idxs cols).fst, (t.selectData idxs cols).snd, idxs.length)

/-- The data `DatabaseEngine::describeTable` renders: (name, type) pairs in
declared order, the column count and the row count it prints. -/
def describeData (st : DB) (tn : String) :
    Except String (List (String × String) × Nat × Nat) :=
  match lookupTable st tn with
  | none => Except.error (notFoundMsg tn)
  | some t => Except.ok (t.columns.map (fun c => (c.name, c.type)), t.columns.length, t.rows.length)

/-- The data `DatabaseEngine::showTables` renders: each sorted name with its
row count (the C++ re-looks each name up and skips a missing one; names come
from `listTables`, so none is missing). -/
def showTablesData (st : DB) : List (String × Nat) :=
  (listTables st).filterMap (fun n => (lookupTable st n).map (fun t => (n, t.rows.length)))

/-- The column loop of `executeQuery`'s CREATE_TABLE branch. -/
def addColumnsLoop : DB → String → List Column → Except String DB
  | st, _, [] => Except.ok st
  | st, n, c :: cs =>
    match addColumnE st n c.name c.type with
    | Except.error e => Except.error e
    | Except.ok st' => addColumnsLoop st' n cs

/-- One unit of engine output: a success message, a rendered result
(SELECT: headers, rows, reported count — SHOW TABLES — DESCRIBE), or an
error line on `std::cerr`. -/
inductive Output where
  | msg : String → Output
  | table : List String → List (List String) → Nat → Output
  | tablesList : List (String × Nat) → Nat → Output
  | describe : String → List (String × String) → Nat → Nat → Output
  | err : String → Output
deriving DecidableEq, Repr

/-- The body of `DatabaseEngine::executeQuery` WITHOUT its `try`/`catch`:
parse, dispatch on the statement kind, produce the new registry and the
output.  An `UNKNOWN` statement is a silent no-op. -/
def executeQueryE (st : DB) (q : String) : Except String (DB × List Output) :=
  match parse q with
  | Except.error e => Except.error e
  | Except.ok pq =>
    match pq.type with
    | QueryType.CREATE_TABLE =>
      match createTable st pq.table_name with
      | Except.error e => Except.error e
      | Except.ok st1 =>
        match addColumnsLoop st1 pq.table_name pq.columns with
        | Except.error e => Except.error e
        | Except.ok st2 =>
          Except.ok (st2, [Output.msg ("Table '" ++ pq.table_name ++ "' created successfully.")])
    | QueryType.INSERT =>
      match insertIntoE st pq.table_name pq.values with
      | Except.error e => Except.error e
      | Except.ok st' => Except.ok (st', [Output.msg "1 row inserted."])
    | QueryType.SELECT =>
      match selectE st pq.table_name pq.selected_columns pq.where_clause with
      | Except.error e => Except.error e
      | Except.ok (h, b, c) => Except.ok (st, [Output.table h b c])
    | QueryType.DROP_TABLE =>
      match dropTableE st pq.table_name with
      | Except.error e => Except.error e
      | Except.ok st' =>
        Except.ok (st', [Output.msg ("Table '" ++ pq.table_name ++ "' dropped successfully.")])
    | QueryType.SHOW_TABLES => Except.ok (st, [Output.tablesList (showTablesData st) st.length])
    | QueryType.DESCRIBE =>
      match describeData st pq.table_name with
      | Except.error e => Except.error e
      | Except.ok (cs, cc, rc) => Except.ok (st, [Output.describe pq.table_name cs cc rc])
    | QueryType.UNKNOWN => Except.ok (st, [])

/-- `DatabaseEngine::executeQuery`: the catch boundary.  Any error thrown
while parsing or dispatching becomes an `Output.err` line and the registry
the caller keeps is the pre-call one — faithful to the C++ because no
dispatch path mutates the registry before a point that can still throw
(CREATE throws only before inserting the fresh table, its `addColumn` loop
cannot throw; INSERT converts the whole row before appending; DROP checks
before erasing; SELECT/SHOW/DESCRIBE do not mutate). -/
def executeQuery (st : DB) (q : String) : DB × List Output :=
  match executeQueryE st q with
  | Except.ok r => r
  | Except.error e => (st, [Output.err e])

/-- Run a statement sequence on an engine, collecting each statement's
output (the REPL loop of `SimpleDatabase::run`). -/
def runStatements (st : DB) : List String → DB × List (List Output)
  | [] => (st, [])
  | q :: qs =>
    match executeQuery st q with
    | (st', out) =>
      match runStatements st' qs with
      | (stF, outs) => (stF, out :: outs)

/-! ### Definitions used only to state spec properties -/

/-- The four payload kinds of `Value`. -/
inductive ValueKind where
  | KInt
  | KDouble
  | KString
  | KBool
deriving DecidableEq, Repr

/-- The kind of a stored value. -/
def valueKind : Value → ValueKind
  | Value.intV _ => ValueKind.KInt
  | Value.doubleV _ => ValueKind.KDouble
  | Value.strV _ => ValueKind.KString
  | Value.boolV _ => ValueKind.KBool

/-- The kind `parseValue` stores for a declared type string: the branch
order of `parseValue`, with every unrecognized type falling back to
string. -/
def typeKind (ty : String) : ValueKind :=
  if ty = "int" then ValueKind.KInt
  else if ty = "double" then ValueKind.KDouble
  else if ty = "bool" then ValueKind.KBool
  else ValueKind.KString

/-- The spec's row-shape invariant: the row is as long as the schema and
each position's stored kind is its column's declared kind. -/
def rowMatchesSchema (row : Row) (cols : List Column) : Bool :=
  row.length == cols.length &&
    (row.zip cols).all (fun p => valueKind p.fst == typeKind p.snd.type)

/-- The numeric-conversion precondition of an insert-by-strings: every value
paired with an `int` column has a `stoi`-parsable prefix, every value paired
with a `double` column a `stod`-parsable one. -/
def numericOk (vals : List String) (cols : List Column) : Bool :=
  (vals.zip cols).all (fun p =>
    if p.snd.type = "int" then (stoi p.fst).isSome
    else if p.snd.type = "double" then (stod p.fst).isSome
    else true)

/-- Modelled from the spec (not from the code, which has no such check):
a string that "parses as a base-10 integer" read as a whole — optional
sign, at least one digit, and nothing else. -/
def specValidInt (s : String) : Bool :=
  match s.toList with
  | [] => false
  | c :: cs =>
    let ds := if c = '-' ∨ c = '+' then cs else c :: cs
    !ds.isEmpty && ds.all Char.isDigit

/-- The punctuation characters `tokenize` treats specially. -/
def puncts : List Char := ['(', ')', ',', ';']

/-- A whitespace fragment whose punctuation (if any) sits only where
`tokenize` actually splits it off: either one trailing separator with a
punctuation-free rest, or one leading open parenthesis with a
punctuation-free rest, or no punctuation at all. -/
def fragOk (w : List Char) : Bool :=
  if w.getLast? = some ',' ∨ w.getLast? = some ';' ∨ w.getLast? = some ')' then
    w.dropLast.all (fun c => !(puncts.contains c))
  else if w.head? = some '(' then
    w.tail.all (fun c => !(puncts.contains c))
  else
    w.all (fun c => !(puncts.contains c))

/-! ### Helper lemmas -/

theorem lookupTable_eq_none_iff (st : DB) (n : String) :
    lookupTable st n = none ↔ n ∉ st.map Prod.fst := by
  induction st with
  | nil => simp [lookupTable]
  | cons p rest ih =>
    by_cases h : p.fst = n
    · simp [lookupTable, h]
    · simp [lookupTable, h, ih, Ne.symm h]

theorem lookupTable_cons (k : String) (t : Table) (rest : DB) (n : String) :
    lookupTable ((k, t) :: rest) n = if k = n then some t else lookupTable rest n := rfl

theorem lookupTable_replace (st : DB) (n : String) (t' : Table) :
    lookupTable (replaceTable st n t') n =
      if (lookupTable st n).isSome then some t' else none := by
  induction st with
  | nil => rfl
  | cons p rest ih =>
    rcases p with ⟨k, t⟩
    by_cases h : k = n
    · subst h
      have h1 : replaceTable ((k, t) :: rest) k t' = (k, t') :: replaceTable rest k t' := by
        simp [replaceTable]
      rw [h1, lookupTable_cons, lookupTable_cons, if_pos rfl, if_pos rfl]
      simp
    · have h1 : replaceTable ((k, t) :: rest) n t' = (k, t) :: replaceTable rest n t' := by
        simp [replaceTable, h]
      rw [h1, lookupTable_cons, lookupTable_cons, if_neg h, if_neg h, ih]

theorem lookupTable_filter_ne (st : DB) (n : String) :
    lookupTable (st.filter (fun p => p.fst ≠ n)) n = none := by
  induction st with
  | nil => rfl
  | cons p rest ih =>
    rcases p with ⟨k, t⟩
    by_cases h : k = n
    · subst h
      have h1 : ((k, t) :: rest).filter (fun p => p.fst ≠ k) =
          rest.filter (fun p => p.fst ≠ k) := by simp [List.filter_cons]
      rw [h1, ih]
    · have h1 : ((k, t) :: rest).filter (fun p => p.fst ≠ n) =
          (k, t) :: rest.filter (fun p => p.fst ≠ n) := by simp [List.filter_cons, h]
      rw [h1, lookupTable_cons, if_neg h, ih]

theorem parseValue_kind (s ty : String) (v : Value) (h : parseValue s ty = Except.ok v) :
    valueKind v = typeKind ty := by
  unfold parseValue at h
  unfold typeKind
  split_ifs at h ⊢ with h1 h2 h3
  · cases h4 : stoi s with
    | none => rw [h4] at h; cases h
    | some w => rw [h4] at h; cases h; rfl
  · cases h4 : stod s with
    | none => rw [h4] at h; cases h
    | some w => rw [h4] at h; cases h; rfl
  · cases h; rfl
  · cases h; rfl

theorem parseValue_isOk (s ty : String) :
    (parseValue s ty).isOk =
      (if ty = "int" then (stoi s).isSome
       else if ty = "double" then (stod s).isSome
       else true) := by
  unfold parseValue
  split_ifs with h1 h2
  · cases h4 : stoi s <;> simp [h4, Except.isOk, Except.toBool]
  · cases h4 : stod s <;> simp [h4, Except.isOk, Except.toBool]
  · simp [Except.isOk, Except.toBool]
  · simp [Except.isOk, Except.toBool]

theorem parseRow_matches : ∀ (vals : List String) (cols : List Column) (row : List Value),
    parseRowValues (vals.zip cols) = Except.ok row →
    vals.length = cols.length →
    rowMatchesSchema row cols = true := by
  intro vals
  induction vals with
  | nil =>
    intro cols row h hlen
    cases cols with
    | nil => cases h; rfl
    | cons c cs => simp at hlen
  | cons s vs ih =>
    intro cols row h hlen
    cases cols with
    | nil => simp at hlen
    | cons c cs =>
      simp only [List.zip_cons_cons] at h
      unfold parseRowValues at h
      cases h1 : parseValue s c.type with
      | error e => rw [h1] at h; cases h
      | ok v =>
        rw [h1] at h
        cases h2 : parseRowValues (vs.zip cs) with
        | error e => rw [h2] at h; cases h
        | ok ws =>
          rw [h2] at h; cases h
          have hm := ih cs ws h2 (by simpa using hlen)
          simp only [rowMatchesSchema, List.zip_cons_cons, List.all_cons,
            Bool.and_eq_true, beq_iff_eq, List.length_cons] at hm ⊢
          obtain ⟨hm1, hm2⟩ := hm
          exact ⟨by omega, parseValue_kind _ _ _ h1, hm2⟩

theorem parseRowValues_ok_of_numericOk : ∀ (vals : List String) (cols : List Column),
    numericOk vals cols = true →
    ∃ row, parseRowValues (vals.zip cols) = Except.ok row := by
  intro vals
  induction vals with
  | nil => intro cols _; exact ⟨[], by cases cols <;> rfl⟩
  | cons s vs ih =>
    intro cols h
    cases cols with
    | nil => exact ⟨[], rfl⟩
    | cons c cs =>
      simp only [numericOk, List.zip_cons_cons, List.all_cons, Bool.and_eq_true] at h
      obtain ⟨h1, h2⟩ := h
      have hOk : (parseValue s c.type).isOk = true := by
        rw [parseValue_isOk]; exact h1
      cases h3 : parseValue s c.type with
      | error e => rw [h3] at hOk; cases hOk
      | ok v =>
        obtain ⟨row, h4⟩ := ih cs h2
        exact ⟨v :: row, by rw [List.zip_cons_cons]; unfold parseRowValues; simp [h3, h4]⟩

theorem parseRowValues_error_of_not_numericOk : ∀ (vals : List String) (cols : List Column),
    numericOk vals cols = false →
    ∃ e, parseRowValues (vals.zip cols) = Except.error e := by
  intro vals
  induction vals with
  | nil => intro cols h; simp [numericOk] at h
  | cons s vs ih =>
    intro cols h
    cases cols with
    | nil => simp [numericOk] at h
    | cons c cs =>
      by_cases h1 : (if c.type = "int" then (stoi s).isSome
          else if c.type = "double" then (stod s).isSome else true) = true
      · have h2 : numericOk vs cs = false := by
          by_contra h3
          have h4 : numericOk vs cs = true := by
            cases h5 : numericOk vs cs with
            | true => rfl
            | false => exact absurd h5 h3
          simp only [numericOk, List.zip_cons_cons, List.all_cons] at h
          rw [h1] at h
          simp only [Bool.true_and] at h
          exact absurd h (by simp [numericOk] at h4 ⊢; exact h4)
        have hOk : (parseValue s c.type).isOk = true := by rw [parseValue_isOk]; exact h1
        cases h3 : parseValue s c.type with
        | error e => rw [h3] at hOk; cases hOk
        | ok v =>
          obtain ⟨e, h4⟩ := ih cs h2
          exact ⟨e, by simp only [List.zip_cons_cons]; unfold parseRowValues; simp [h3, h4]⟩
      · have hBad : (parseValue s c.type).isOk = false := by
          rw [parseValue_isOk]
          cases h5 : (if c.type = "int" then (stoi s).isSome
              else if c.type = "double" then (stod s).isSome else true) with
          | true => exact absurd h5 h1
          | false => rfl
        cases h3 : parseValue s c.type with
        | error e => exact ⟨e, by simp only [List.zip_cons_cons]; unfold parseRowValues; simp [h3]⟩
        | ok v => rw [h3] at hBad; cases hBad

/-- C2 (amended): every row accepted by either `insertRow` overload has
length equal to the column count, and a row inserted through the
string-vector overload additionally has, at every position, a stored value
whose kind is the declared kind of its column; the typed `Row` overload,
however, checks only the length — it performs no kind check. -/
theorem c2_insert_shape_invariant :
    (∀ (t : Table) (row : Row) (t' : Table),
        Table.insertRow t row = Except.ok t' →
        t'.rows = t.rows ++ [row] ∧ row.length = t.columns.length) ∧
    (∀ (t : Table) (vals : List String) (t' : Table),
        Table.insertRowStrings t vals = Except.ok t' →
        ∃ row, t'.rows = t.rows ++ [row] ∧ rowMatchesSchema row t.columns = true) := by
  constructor
  · intro t row t' h
    unfold Table.insertRow at h
    by_cases h1 : row.length ≠ t.columns.length
    · rw [if_pos h1] at h; cases h
    · rw [if_neg h1] at h
      injection h with h2
      subst h2
      exact ⟨rfl, not_not.mp h1⟩
  · intro t vals t' h
    unfold Table.insertRowStrings at h
    by_cases h1 : vals.length ≠ t.columns.length
    · rw [if_pos h1] at h; cases h
    · rw [if_neg h1] at h
      cases h2 : parseRowValues (vals.zip t.columns) with
      | error e => rw [h2] at h; cases h
      | ok row =>
        rw [h2] at h
        injection h with h3
        subst h3
        exact ⟨row, rfl, parseRow_matches _ _ _ h2 (not_not.mp h1)⟩

/-- C2 witness: a length-respecting typed insert and a successful string
insert at concrete inputs, through `c2_insert_shape_invariant`. -/
theorem c2_insert_shape_invariant_witness :
    ((⟨"t", [⟨"a", "int"⟩], [[Value.intV 5]]⟩ : Table).rows =
        (⟨"t", [⟨"a", "int"⟩], []⟩ : Table).rows ++ [[Value.intV 5]] ∧
      ([Value.intV 5] : Row).length = (⟨"t", [⟨"a", "int"⟩], []⟩ : Table).columns.length) ∧
    (∃ row, (⟨"t", [⟨"a", "int"⟩], [[Value.intV 7]]⟩ : Table).rows =
        (⟨"t", [⟨"a", "int"⟩], []⟩ : Table).rows ++ [row] ∧
      rowMatchesSchema row (⟨"t", [⟨"a", "int"⟩], []⟩ : Table).columns = true) :=
  ⟨c2_insert_shape_invariant.1 ⟨"t", [⟨"a", "int"⟩], []⟩ [Value.intV 5]
      ⟨"t", [⟨"a", "int"⟩], [[Value.intV 5]]⟩ (by decide),
    c2_insert_shape_invariant.2 ⟨"t", [⟨"a", "int"⟩], []⟩ ["7"]
      ⟨"t", [⟨"a", "int"⟩], [[Value.intV 7]]⟩ (by decide)⟩

/-- C2 counterexample: the typed `insertRow` overload accepts a row whose
value kind contradicts the declared column type — the claim that both
overloads reject kind-violating rows is false. -/
theorem c2_counterexample :
    Table.insertRow ⟨"t", [⟨"a", "int"⟩], []⟩ [Value.strV "x"] =
      Except.ok ⟨"t", [⟨"a", "int"⟩], [[Value.strV "x"]]⟩ ∧
    rowMatchesSchema [Value.strV "x"] [⟨"a", "int"⟩] = false := by decide

/-- C4 (amended): an insert-by-strings succeeds, appending exactly one row
at the end, iff the value count matches the column count and every value
paired with an `int`/`double` column is accepted by that type's library
conversion (`std::stoi` / `std::stod`, modelled by `stoi`/`stod` above:
prefix parse after optional whitespace and sign, `stod` also accepting the
`inf`/`nan` spellings and hexadecimal floats but rejecting values beyond
the double range); otherwise it raises an error and returns no table (a
failing conversion happens before anything is appended, so the table is
untouched).  In particular, text following a valid numeric prefix — for
example `"12abc"` for an `int` column — is ignored, not an error. -/
theorem c4_insert_strings_spec :
    ∀ (t : Table) (vals : List String),
      (vals.length = t.columns.length ∧ numericOk vals t.columns = true →
        ∃ row, Table.insertRowStrings t vals =
          Except.ok ⟨t.table_name, t.columns, t.rows ++ [row]⟩) ∧
      (vals.length ≠ t.columns.length ∨ numericOk vals t.columns = false →
        ∃ e, Table.insertRowStrings t vals = Except.error e) := by
  intro t vals
  constructor
  · rintro ⟨h1, h2⟩
    obtain ⟨row, h3⟩ := parseRowValues_ok_of_numericOk vals t.columns h2
    refine ⟨row, ?_⟩
    unfold Table.insertRowStrings
    rw [if_neg (not_not_intro h1)]
    simp [h3]
  · intro h
    rcases h with h1 | h2
    · exact ⟨_, by unfold Table.insertRowStrings; rw [if_pos h1]⟩
    · by_cases h1 : vals.length = t.columns.length
      · obtain ⟨e, h3⟩ := parseRowValues_error_of_not_numericOk vals t.columns h2
        refine ⟨e, ?_⟩
        unfold Table.insertRowStrings
        rw [if_neg (not_not_intro h1)]
        simp [h3]
      · exact ⟨_, by unfold Table.insertRowStrings; rw [if_pos h1]⟩

/-- C4 witness: a succeeding and a failing insert at concrete inputs,
through `c4_insert_strings_spec`. -/
theorem c4_insert_strings_spec_witness :
    (∃ row, Table.insertRowStrings ⟨"t", [⟨"a", "int"⟩], []⟩ ["7"] =
        Except.ok ⟨"t", [⟨"a", "int"⟩], ([] : List Row) ++ [row]⟩) ∧
    (∃ e, Table.insertRowStrings ⟨"t", [⟨"a", "int"⟩], []⟩ ["x"] = Except.error e) :=
  ⟨(c4_insert_strings_spec ⟨"t", [⟨"a", "int"⟩], []⟩ ["7"]).1 ⟨by decide, by decide⟩,
    (c4_insert_strings_spec ⟨"t", [⟨"a", "int"⟩], []⟩ ["x"]).2 (Or.inr (by decide))⟩

/-- C4 counterexample: `"12abc"` is not a valid base-10 integer in the
spec's sense, yet the insert succeeds (storing 12) instead of raising an
error — `std::stoi` parses a prefix. -/
theorem c4_counterexample :
    specValidInt "12abc" = false ∧
    Table.insertRowStrings ⟨"t", [⟨"a", "int"⟩], []⟩ ["12abc"] =
      Except.ok ⟨"t", [⟨"a", "int"⟩], [[Value.intV 12]]⟩ := by decide

/-- C5: for every registry state and input string, `executeQuery` returns
normally — when the parse/dispatch body raises an error, the boundary
converts it into an error line and hands back the unchanged pre-call
registry; when it succeeds, its result is returned as is. -/
theorem c5_executeQuery_returns_normally (st : DB) (q : String) :
    (∃ r, executeQueryE st q = Except.ok r ∧ executeQuery st q = r) ∨
    (∃ e, executeQueryE st q = Except.error e ∧
      executeQuery st q = (st, [Output.err e])) := by
  cases h : executeQueryE st q with
  | ok r => exact Or.inl ⟨r, rfl, by unfold executeQuery; rw [h]⟩
  | error e => exact Or.inr ⟨e, rfl, by unfold executeQuery; rw [h]⟩

/-- C8: on an unregistered name every engine operation that references the
name — dropTable, getTable, insertInto, select, describeTable — fails with
the "not found" error (and the failing dropTable returns no new registry);
and after a successful dropTable the name is unregistered. -/
theorem c8_drop_table_not_found (st : DB) (n : String) :
    (hasTable st n = false →
      dropTableE st n = Except.error (notFoundMsg n) ∧
      getTableE st n = Except.error (notFoundMsg n) ∧
      (∀ vals, insertIntoE st n vals = Except.error (notFoundMsg n)) ∧
      (∀ cols wc, selectE st n cols wc = Except.error (notFoundMsg n)) ∧
      describeData st n = Except.error (notFoundMsg n)) ∧
    (∀ st', dropTableE st n = Except.ok st' → hasTable st' n = false) := by
  constructor
  · intro h
    have h0 : lookupTable st n = none := by
      cases h2 : lookupTable st n with
      | none => rfl
      | some t => unfold hasTable at h; rw [h2] at h; cases h
    refine ⟨by simp [dropTableE, h], by simp [getTableE, h0],
      fun vals => by simp [insertIntoE, getTableE, h0],
      fun cols wc => by simp [selectE, h0], by simp [describeData, h0]⟩
  · intro st' h
    unfold dropTableE at h
    by_cases h1 : hasTable st n = true
    · rw [if_pos h1] at h
      injection h with h2
      subst h2
      unfold hasTable
      rw [lookupTable_filter_ne]
      rfl
    · rw [if_neg h1] at h; cases h

/-- C8 witness: the not-found failures on an empty registry and the
unregistered state after a successful drop, through
`c8_drop_table_not_found`. -/
theorem c8_drop_table_not_found_witness :
    dropTableE [] "missing" = Except.error (notFoundMsg "missing") ∧
    insertIntoE [] "missing" ["1"] = Except.error (notFoundMsg "missing") ∧
    hasTable ([] : DB) "t" = false :=
  ⟨((c8_drop_table_not_found [] "missing").1 (by decide)).1,
    ((c8_drop_table_not_found [] "missing").1 (by decide)).2.2.1 ["1"],
    (c8_drop_table_not_found [("t", ⟨"t", [], []⟩)] "t").2 [] (by decide)⟩

theorem selectRowsAux_all_true (t : Table) (wc : String)
    (he : ∀ r, Table.evaluateCondition t r wc = Except.ok true) :
    ∀ (rows : List Row) (i : Nat),
      selectRowsAux t wc i rows = Except.ok (List.range' i rows.length) := by
  intro rows
  induction rows with
  | nil => intro i; rfl
  | cons r rs ih =>
    intro i
    unfold selectRowsAux
    rw [he r, ih (i + 1)]
    simp [List.range']

/-- C6: a condition with fewer than three whitespace tokens evaluates to
true on every row, so `selectRows` with it selects every row index; a
condition with at least three tokens whose first token names no column
evaluates to false on every row. -/
theorem c6_condition_defaults (t : Table) (row : Row) (cond : String) :
    ((condWords cond).length < 3 →
      Table.evaluateCondition t row cond = Except.ok true ∧
      Table.selectRows t cond = Except.ok (List.range t.rows.length)) ∧
    (∀ a op v rest, condWords cond = a :: op :: v :: rest →
      Table.hasColumn t a = false →
      Table.evaluateCondition t row cond = Except.ok false) := by
  constructor
  · intro h
    have he : ∀ r : Row, Table.evaluateCondition t r cond = Except.ok true := by
      intro r
      cases h1 : condWords cond with
      | nil => simp [Table.evaluateCondition, h1]
      | cons a l1 =>
        cases l1 with
        | nil => simp [Table.evaluateCondition, h1]
        | cons b l2 =>
          cases l2 with
          | nil => simp [Table.evaluateCondition, h1]
          | cons c l3 => rw [h1] at h; simp at h; omega
    refine ⟨he row, ?_⟩
    by_cases hc : cond = ""
    · simp [Table.selectRows, hc]
    · unfold Table.selectRows
      rw [if_neg hc, selectRowsAux_all_true t cond he t.rows 0, List.range_eq_range']
  · intro a op v rest h1 h2
    have h3 : lastIndexOfName t.columns a = none := by
      cases h4 : lastIndexOfName t.columns a with
      | none => rfl
      | some i => unfold Table.hasColumn at h2; rw [h4] at h2; cases h2
    simp [Table.evaluateCondition, h1, h3]

/-- C6 witness: the match-all default and the unknown-column false at
concrete inputs, through `c6_condition_defaults`. -/
theorem c6_condition_defaults_witness :
    (Table.evaluateCondition ⟨"t", [⟨"a", "int"⟩], [[Value.intV 1]]⟩ [Value.intV 1] "x" =
        Except.ok true ∧
      Table.selectRows ⟨"t", [⟨"a", "int"⟩], [[Value.intV 1]]⟩ "x" =
        Except.ok (List.range (⟨"t", [⟨"a", "int"⟩], [[Value.intV 1]]⟩ : Table).rows.length)) ∧
    Table.evaluateCondition ⟨"t", [⟨"a", "int"⟩], [[Value.intV 1]]⟩ [Value.intV 1] "q = 1" =
      Except.ok false :=
  ⟨(c6_condition_defaults ⟨"t", [⟨"a", "int"⟩], [[Value.intV 1]]⟩ [Value.intV 1] "x").1
      (by decide),
    (c6_condition_defaults ⟨"t", [⟨"a", "int"⟩], [[Value.intV 1]]⟩ [Value.intV 1] "q = 1").2
      "q" "=" "1" [] (by decide) (by decide)⟩

/-- C10 (amended): a three-token condition whose operator is none of
=, !=, <, >, <=, >= and whose column exists evaluates to false — provided
the literal token parses under the column's declared type (always true for
bool/string columns); when that conversion fails, the evaluation instead
raises the conversion error (see the counterexample). -/
theorem c10_unknown_operator_false (t : Table) (row : Row) (cond : String)
    (a op v : String) (rest : List String) (i : Nat) (cv : Value)
    (h1 : condWords cond = a :: op :: v :: rest)
    (h2 : lastIndexOfName t.columns a = some i)
    (h3 : op ∉ (["=", "!=", "<", ">", "<=", ">="] : List String))
    (h4 : parseValue v ((t.columns.getD i ⟨"", ""⟩).type) = Except.ok cv) :
    Table.evaluateCondition t row cond = Except.ok false := by
  simp only [List.mem_cons, List.not_mem_nil, or_false] at h3
  push_neg at h3
  obtain ⟨n1, n2, n3, n4, n5, n6⟩ := h3
  simp only [Table.evaluateCondition, h1, h2, h4]
  unfold applyOp
  rw [if_neg n1, if_neg n2, if_neg n3, if_neg n4, if_neg n5, if_neg n6]

/-- C10 witness: an unrecognized operator with a parsable literal filters
the row out silently, through `c10_unknown_operator_false`. -/
theorem c10_unknown_operator_false_witness :
    Table.evaluateCondition ⟨"t", [⟨"a", "int"⟩], [[Value.intV 1]]⟩ [Value.intV 1] "a ~ 2" =
      Except.ok false :=
  c10_unknown_operator_false ⟨"t", [⟨"a", "int"⟩], [[Value.intV 1]]⟩ [Value.intV 1] "a ~ 2"
    "a" "~" "2" [] 0 (Value.intV 2) (by decide) (by decide) (by decide) (by decide)

/-- C10 counterexample: with an unrecognized operator but a literal that
does NOT convert under the column's type, `evaluateCondition` raises the
conversion error instead of returning false — the unconditional claim is
false. -/
theorem c10_counterexample :
    Table.evaluateCondition ⟨"t", [⟨"a", "int"⟩], [[Value.intV 1]]⟩ [Value.intV 1] "a ~ x" =
      Except.error "stoi" := by decide

theorem lookupTable_isSome_of_mem (st : DB) (n : String) (h : n ∈ st.map Prod.fst) :
    (lookupTable st n).isSome = true := by
  induction st with
  | nil => simp at h
  | cons p rest ih =>
    rcases p with ⟨k, t⟩
    by_cases h1 : k = n
    · subst h1; rw [lookupTable_cons, if_pos rfl]; rfl
    · rw [lookupTable_cons, if_neg h1]
      apply ih
      simp only [List.map_cons, List.mem_cons] at h
      exact h.resolve_left (fun he => h1 he.symm)

theorem showTablesData_fst (st : DB) :
    (showTablesData st).map Prod.fst = listTables st := by
  have hmem : ∀ n ∈ listTables st, (lookupTable st n).isSome = true := by
    intro n hn
    exact lookupTable_isSome_of_mem st n
      ((List.perm_insertionSort (fun a b => a ≤ b) (st.map Prod.fst)).mem_iff.mp hn)
  unfold showTablesData
  generalize hg : listTables st = l at hmem
  clear hg
  induction l with
  | nil => rfl
  | cons n ns ih =>
    have h1 := hmem n (List.mem_cons_self n ns)
    cases h2 : lookupTable st n with
    | none => rw [h2] at h1; cases h1
    | some t =>
      simp only [List.filterMap_cons, h2, Option.map_some', List.map_cons]
      rw [ih (fun m hm => hmem m (List.mem_cons_of_mem _ hm))]

/-- C9: `listTables` is always lexicographically sorted; it depends only on
the SET of registered names (two registries holding the same names list them
identically, whatever the creation order produced); and the SHOW TABLES
rows are exactly those names in that order. -/
theorem c9_listTables_sorted_canonical :
    (∀ st : DB, List.Sorted (fun a b => a ≤ b) (listTables st)) ∧
    (∀ st1 st2 : DB, (st1.map Prod.fst).Nodup → (st2.map Prod.fst).Nodup →
      (∀ n, n ∈ st1.map Prod.fst ↔ n ∈ st2.map Prod.fst) →
      listTables st1 = listTables st2) ∧
    (∀ st : DB, (showTablesData st).map Prod.fst = listTables st) := by
  refine ⟨fun st => List.sorted_insertionSort _ _, ?_, showTablesData_fst⟩
  intro st1 st2 h1 h2 h3
  have hp : List.Perm (st1.map Prod.fst) (st2.map Prod.fst) :=
    (List.perm_ext_iff_of_nodup h1 h2).mpr h3
  exact List.eq_of_perm_of_sorted
    ((List.perm_insertionSort _ _).trans (hp.trans (List.perm_insertionSort _ _).symm))
    (List.sorted_insertionSort _ _) (List.sorted_insertionSort _ _)

/-- C9 witness: two creation orders of the same two tables list
identically, through `c9_listTables_sorted_canonical`. -/
theorem c9_listTables_sorted_canonical_witness :
    listTables [("b", ⟨"b", [], []⟩), ("a", ⟨"a", [], []⟩)] =
      listTables [("a", ⟨"a", [], []⟩), ("b", ⟨"b", [], []⟩)] :=
  c9_listTables_sorted_canonical.2.1 _ _ (by decide) (by decide)
    (fun n => by simp [or_comm])

theorem addColumnsLoop_spec : ∀ (cols : List Column) (st : DB) (n : String) (t : Table),
    lookupTable st n = some t →
    ∃ st', addColumnsLoop st n cols = Except.ok st' ∧
      lookupTable st' n = some ⟨t.table_name, t.columns ++ cols, t.rows⟩ := by
  intro cols
  induction cols with
  | nil =>
    intro st n t h
    exact ⟨st, rfl, by rw [h]; simp⟩
  | cons c cs ih =>
    intro st n t h
    have hrep : lookupTable (replaceTable st n (t.addColumn c.name c.type)) n =
        some (t.addColumn c.name c.type) := by
      rw [lookupTable_replace, h]; rfl
    obtain ⟨st', h1, h2⟩ := ih (replaceTable st n (t.addColumn c.name c.type)) n _ hrep
    refine ⟨st', ?_, ?_⟩
    · unfold addColumnsLoop addColumnE getTableE
      rw [h]
      exact h1
    · rw [h2]
      simp [Table.addColumn]

/-- C7: for every CREATE TABLE statement the parser accepts, executing it
on a registry without that name stores a table whose columns are exactly
the declared ones in declaration order, and DESCRIBE then reports exactly
those names and types in that order, with their count (and zero rows). -/
theorem c7_create_column_order (st : DB) (q : String) (pq : ParsedQuery)
    (hp : parse q = Except.ok pq) (ht : pq.type = QueryType.CREATE_TABLE)
    (hn : hasTable st pq.table_name = false) :
    (∃ tbl, lookupTable (executeQuery st q).fst pq.table_name = some tbl ∧
      tbl.columns = pq.columns) ∧
    describeData (executeQuery st q).fst pq.table_name =
      Except.ok (pq.columns.map (fun c => (c.name, c.type)), pq.columns.length, 0) := by
  have hcreate : createTable st pq.table_name =
      Except.ok ((pq.table_name, ⟨pq.table_name, [], []⟩) :: st) := by
    simp [createTable, hn]
  have hlook : lookupTable ((pq.table_name, ⟨pq.table_name, [], []⟩) :: st) pq.table_name =
      some ⟨pq.table_name, [], []⟩ := by
    rw [lookupTable_cons, if_pos rfl]
  obtain ⟨st2, h1, h2⟩ := addColumnsLoop_spec pq.columns _ pq.table_name _ hlook
  have hexec : executeQuery st q =
      (st2, [Output.msg ("Table '" ++ pq.table_name ++ "' created successfully.")]) := by
    unfold executeQuery executeQueryE
    simp only [hp, ht, hcreate, h1]
  rw [hexec]
  simp only [List.nil_append] at h2
  constructor
  · exact ⟨_, h2, rfl⟩
  · unfold describeData
    rw [h2]
    rfl

/-- C7 witness: a concrete CREATE TABLE statement, through
`c7_create_column_order`. -/
theorem c7_create_column_order_witness :
    (∃ tbl, lookupTable
        (executeQuery [] "CREATE TABLE t (a int, b string)").fst "t" = some tbl ∧
      tbl.columns = [⟨"a", "int"⟩, ⟨"b", "string"⟩]) ∧
    describeData (executeQuery [] "CREATE TABLE t (a int, b string)").fst "t" =
      Except.ok ([("a", "int"), ("b", "string")], 2, 0) :=
  c7_create_column_order [] "CREATE TABLE t (a int, b string)"
    ⟨QueryType.CREATE_TABLE, "t", [⟨"a", "int"⟩, ⟨"b", "string"⟩], [], [], ""⟩
    (by decide) (by decide) (by decide)

theorem not_paren_of_clean (c : Char) (h : (!(puncts.contains c)) = true) :
    ¬(c = '(' ∨ c = ')' ∨ c = ',') := by
  rintro (h1 | h1 | h1) <;> subst h1 <;> exact absurd h (by decide)

theorem processFragment_clean (w : List Char) (hok : fragOk w = true) :
    ∀ t ∈ processFragment w, 1 < t.length → ∀ c ∈ t, ¬(c = '(' ∨ c = ')' ∨ c = ',') := by
  cases w with
  | nil => intro t ht; simp [processFragment] at ht
  | cons ch cs =>
    intro t ht hlen c hc
    simp only [processFragment] at ht
    unfold fragOk at hok
    cases hL : (ch :: cs).getLast? with
    | none => rw [hL] at ht; simp at ht
    | some b =>
      rw [hL] at ht hok
      replace ht : t ∈ ((if b = ',' ∨ b = ';' ∨ b = ')' then
          (if (ch :: cs).dropLast.isEmpty then [] else [(ch :: cs).dropLast]) ++
            (if b = ',' ∨ b = ')' then [[b]] else [])
        else if ch = '(' then [['(']] ++ (if cs.isEmpty then [] else [cs])
        else [ch :: cs]) : List (List Char)) := ht
      by_cases hb : b = ',' ∨ b = ';' ∨ b = ')'
      · have hcond : some b = some ',' ∨ some b = some ';' ∨ some b = some ')' := by
          rcases hb with h | h | h <;> simp [h]
        rw [if_pos hb] at ht
        rw [if_pos hcond] at hok
        rcases List.mem_append.mp ht with ht1 | ht2
        · by_cases he : ((ch :: cs).dropLast).isEmpty
          · rw [if_pos he] at ht1; simp at ht1
          · rw [if_neg he] at ht1
            simp only [List.mem_singleton] at ht1
            subst ht1
            exact not_paren_of_clean c (List.all_eq_true.mp hok c hc)
        · by_cases hb2 : b = ',' ∨ b = ')'
          · rw [if_pos hb2] at ht2
            simp only [List.mem_singleton] at ht2
            subst ht2
            simp at hlen
          · rw [if_neg hb2] at ht2
            simp at ht2
      · have hcond : ¬(some b = some ',' ∨ some b = some ';' ∨ some b = some ')') := by
          rintro (h | h | h)
          · exact hb (Or.inl (Option.some.inj h))
          · exact hb (Or.inr (Or.inl (Option.some.inj h)))
          · exact hb (Or.inr (Or.inr (Option.some.inj h)))
        rw [if_neg hb] at ht
        rw [if_neg hcond] at hok
        by_cases hch : ch = '('
        · rw [if_pos hch] at ht
          have hcond2 : (ch :: cs).head? = some '(' := by simp [hch]
          rw [if_pos hcond2] at hok
          rcases List.mem_append.mp ht with ht1 | ht2
          · simp only [List.mem_singleton] at ht1
            subst ht1
            simp at hlen
          · by_cases he : cs.isEmpty
            · rw [if_pos he] at ht2; simp at ht2
            · rw [if_neg he] at ht2
              simp only [List.mem_singleton] at ht2
              subst ht2
              exact not_paren_of_clean c (List.all_eq_true.mp hok c hc)
        · rw [if_neg hch] at ht
          have hcond2 : ¬((ch :: cs).head? = some '(') := by simp [hch]
          rw [if_neg hcond2] at hok
          simp only [List.mem_singleton] at ht
          subst ht
          exact not_paren_of_clean c (List.all_eq_true.mp hok c hc)

theorem mem_tokenizeL (ws : List (List Char)) (t : List Char) :
    t ∈ tokenizeL ws ↔ ∃ w ∈ ws, t ∈ processFragment w := by
  induction ws with
  | nil => simp [tokenizeL]
  | cons w ws ih => simp [tokenizeL, List.mem_append, ih]

/-- C3 (amended): provided every whitespace fragment of the input carries
punctuation only where the tokenizer splits it off — a single trailing
',', ';' or ')', or a leading '(' with a punctuation-free rest, and not
both — every emitted token longer than one character contains no '(', ')'
or ','.  Without that proviso the property fails: punctuation embedded
mid-fragment, repeated, or combined (a leading '(' together with a trailing
separator) stays inside a multi-character token (see the
counterexample). -/
theorem c3_punctuation_isolated (s : String)
    (hfrag : ∀ w ∈ wordsOf s.toList, fragOk w = true) :
    ∀ t ∈ tokenize s, 1 < t.length → ∀ c ∈ t.toList, ¬(c = '(' ∨ c = ')' ∨ c = ',') := by
  intro t ht hlen c hc
  unfold tokenize at ht
  rcases List.mem_map.mp ht with ⟨l, hl, rfl⟩
  rcases (mem_tokenizeL _ _).mp hl with ⟨w, hw, hpw⟩
  exact processFragment_clean w (hfrag w hw) l hpw hlen c hc

/-- C3 witness: a statement-shaped input whose fragments all satisfy the
proviso, through `c3_punctuation_isolated`. -/
theorem c3_punctuation_isolated_witness :
    ¬('c' = '(' ∨ 'c' = ')' ∨ 'c' = ',') :=
  c3_punctuation_isolated "ab cd) (ef" (by decide) "cd" (by decide) (by decide) 'c' (by decide)

/-- C3 counterexample: a comma embedded mid-fragment is NOT isolated — the
input `a,b` yields the single three-character token `a,b`, which contains
a comma, refuting the unconditional claim. -/
theorem c3_counterexample :
    tokenize "a,b" = ["a,b"] ∧ 1 < ("a,b" : String).length ∧
      ',' ∈ ("a,b" : String).toList := by decide

/-- C1 (code bug): in the documented scenario, CREATE TABLE succeeds but
both INSERT statements FAIL — the tokenizer leaves the fragment `(1,` as
the glued token `(1` (stripping the trailing comma skips the
leading-parenthesis split), so `parseInsert` finds no `(` token and throws
"Missing values in INSERT statement".  The table stays empty and the final
SELECT returns zero rows instead of the one row `["Alice"]` the
documentation and spec promise. -/
theorem c1_scenario_insert_rejected :
    (runStatements []
      ["CREATE TABLE users (id int, name string, age int)",
       "INSERT INTO users VALUES (1, Alice, 30)",
       "INSERT INTO users VALUES (2, Bob, 25)",
       "SELECT name FROM users WHERE age > 26"]).snd =
    [[Output.msg "Table 'users' created successfully."],
     [Output.err "Missing values in INSERT statement"],
     [Output.err "Missing values in INSERT statement"],
     [Output.table ["name"] [] 0]] := by decide
